import Mathlib

/-!
Verification of the price-aggregation and categorization pipeline of a
trading-card price-index generator.

Shallow embedding conventions:
* Python strings are modelled as `List Char` (ASCII repertoire plus the
  common Latin accented characters the normalizer handles); `str.lower()`
  is `pyLower` (ASCII case folding, which is what `Char.toLower` does and
  what the keyword tables exercise), and the Python substring test
  `needle in hay` is `List.IsInfix` (written `<:+:`).
* Python floats are modelled as exact rationals `ℚ`; `f"{x:.2f}"` is
  `formatTwoDec`, which rounds to a whole number of cents half-to-even
  the way CPython format does on exactly representable values.
* A nullable JSON number is `Option ℚ`; a missing dictionary entry is
  `Option` as well.
* Python `sorted` on numbers is `pySorted` (insertion sort; the result
  of any comparison sort on rationals is the same list), and `sorted`
  with `key=len, reverse=True` is a stable insertion sort under the
  reversed length order, which matches CPython stable descending sort.
-/

/-! ## Generic string machinery -/

/-- Apostrophe character, kept as a named constant so card names such as
the one for the brand-conflict card can be built without string-literal
quoting issues. -/
def apos : Char := Char.ofNat 39

/-- Model of Python `str.lower()` restricted to ASCII case folding. -/
def pyLower (s : List Char) : List Char := s.map Char.toLower

/-- Model of Python `str.upper()` restricted to ASCII case folding. -/
def pyUpper (s : List Char) : List Char := s.map Char.toUpper

/-- Model of the Python substring operator `needle in hay` as a Bool. -/
def containsSub (needle hay : List Char) : Bool := decide (needle <:+: hay)

/-! ## Name classifier (`game_config.py`) -/

/-- SEALED_KEYWORDS from the game configuration. -/
def SEALED_KEYWORDS : List (List Char) :=
  [("booster box".toList), ("booster box case".toList), ("booster case".toList),
   ("booster pack".toList), ("pledge pack".toList), ("display".toList),
   ("booster display".toList)]

/-- SET_SPECIFIC_SEALED_PATTERNS from the game configuration:
pairs of (lowercased set-name fragment, pattern in the product name). -/
def SET_SPECIFIC_SEALED_PATTERNS : List (List Char × List Char) :=
  [(("dragonlord".toList), ("dragonlord box".toList))]

/-- RARITIES from the game configuration. -/
def RARITIES : List (List Char) :=
  [("Unique".toList), ("Elite".toList), ("Exceptional".toList), ("Ordinary".toList)]

/-- Embedding of `is_sealed_preconstructed_product_name`: a product is a
sealed preconstructed product when its lowercased name contains
"preconstructed deck box" or "preconstructed deck:" or contains
"preconstructed deck" while the original name has no opening parenthesis.
A falsy (empty) name is rejected up front. -/
def is_sealed_preconstructed_product_name (name : List Char) : Bool :=
  if name = [] then false
  else
    let n := pyLower name
    containsSub ("preconstructed deck box".toList) n ||
    containsSub ("preconstructed deck:".toList) n ||
    (containsSub ("preconstructed deck".toList) n && !(containsSub (['(']) name))

/-- Embedding of `is_preconstructed_single_name`: only items with the exact
substring "(Preconstructed Deck)" in the name. (`name or ""` maps the null
string to the empty string, which the empty list already covers.) -/
def is_preconstructed_single_name (name : List Char) : Bool :=
  containsSub ("(Preconstructed Deck)".toList) name

/-- Embedding of `is_sealed_product_name`: sealed products, excluding the
"(Pledge Pack)" and "(Preconstructed Deck)" singles, including sealed
preconstructed products, set-specific patterns, and general keywords. -/
def is_sealed_product_name (name : List Char) (set_name : List Char) : Bool :=
  if name = [] then false
  else if containsSub ("(Pledge Pack)".toList) name ||
          containsSub ("(Preconstructed Deck)".toList) name then false
  else
    let n := pyLower name
    let set_lower := pyLower set_name
    if is_sealed_preconstructed_product_name name then true
    else if SET_SPECIFIC_SEALED_PATTERNS.any
        (fun p => containsSub p.1 set_lower && containsSub p.2 n) then true
    else SEALED_KEYWORDS.any (fun keyword => containsSub keyword n)

/-! ## Categorization cascade (`pricing_core.py`, processing loop) -/

/-- Embedding of `_is_foil_product`: subTypeName is truthy and lowercases
to "foil". -/
def _is_foil_product (sub_type_name : List Char) : Bool :=
  !(sub_type_name = []) && (pyLower sub_type_name = ("foil".toList))

/-- Step 1 flag of the categorization cascade: `is_sealed_precon`. -/
def classifySealedPrecon (name : List Char) : Bool :=
  is_sealed_preconstructed_product_name name

/-- Step 2 flag of the categorization cascade: `is_preconstructed`,
evaluated only when the record is not sealed-preconstructed. -/
def classifyPrecon (name : List Char) : Bool :=
  if classifySealedPrecon name then false else is_preconstructed_single_name name

/-- Step 3 flag of the categorization cascade: `is_sealed`. -/
def classifySealed (name set_name : List Char) : Bool :=
  classifySealedPrecon name ||
    (if classifyPrecon name then false else is_sealed_product_name name set_name)

/-- Step 4 flag of the categorization cascade: `is_foil`, evaluated only
for records that are neither sealed nor preconstructed, from the pricing
subTypeName or a literal "(Foil)" in the product name. -/
def classifyFoil (name set_name sub_type_name : List Char) : Bool :=
  if !(classifySealed name set_name) && !(classifyPrecon name) then
    _is_foil_product sub_type_name || containsSub ("(Foil)".toList) name
  else false

/-- Semantic category of a record, mirroring the `if is_sealed / elif
is_preconstructed / else` routing of the processing loop. -/
inductive Category where
  | sealedProduct : Category
  | preconstructedSingle : Category
  | regularCard : Category
deriving DecidableEq, Repr

/-- Category assigned to a product name by the processing loop routing. -/
def categorize (name set_name : List Char) : Category :=
  if classifySealed name set_name then Category.sealedProduct
  else if classifyPrecon name then Category.preconstructedSingle
  else Category.regularCard

/-! ## Price values and two-decimal formatting -/

/-- Decimal digit character for a digit value below ten. -/
def digitChar (n : ℕ) : Char := Char.ofNat (48 + n)

/-- Fuelled decimal rendering helper for natural numbers. -/
def natToCharsAux : ℕ → ℕ → List Char
  | 0, _ => []
  | fuel + 1, n =>
    if n < 10 then [digitChar n] else natToCharsAux fuel (n / 10) ++ [digitChar (n % 10)]

/-- Decimal rendering of a natural number. -/
def natToChars (n : ℕ) : List Char := natToCharsAux (n + 1) n

/-- Round a rational to the nearest integer, ties to even, which is what
CPython `format` does to the (here exactly represented) float value. -/
def rhe (x : ℚ) : ℤ :=
  let n := ⌊x⌋
  let f := x - n
  if 1/2 < f then n + 1 else if f < 1/2 then n else if n % 2 = 0 then n else n + 1

/-- Render a non-negative number of cents as a dollars.cents string. -/
def formatCents (c : ℤ) : List Char :=
  let n := c.toNat
  natToChars (n / 100) ++ '.' ::
    (if n % 100 < 10 then ['0', digitChar (n % 100)] else natToChars (n % 100))

/-- Model of `f"{x:.2f}"` on an exactly represented value. -/
def formatTwoDec (q : ℚ) : List Char :=
  if q < 0 then '-' :: formatCents (rhe (-q * 100)) else formatCents (rhe (q * 100))

/-- Embedding of the `safe_float` helper of the processing loop: a null
price value becomes the 0.0 default, a numeric one is kept.  (The
`except` branch of the original catches non-numeric junk, which the
`Option ℚ` domain of a JSON price field cannot carry.) -/
def safe_float (value : Option ℚ) : ℚ :=
  match value with
  | none => 0
  | some x => x

/-! ## pricing_core data model -/

/-- Pricing entry for one product from the group-pricing response. -/
structure PriceInfo where
  lowPrice : Option ℚ
  midPrice : Option ℚ
  highPrice : Option ℚ
  marketPrice : Option ℚ
  subTypeName : List Char
deriving DecidableEq, Repr

/-- Product details from the product-info file. -/
structure ProductDetails where
  name : List Char
  rarity : List Char
deriving DecidableEq, Repr

/-- Output record (`card_info`) built by the processing loop. -/
structure CardInfo where
  name : List Char
  tcgplayerProductId : ℕ
  tcgplayerLowPrice : List Char
  tcgplayerMidPrice : List Char
  tcgplayerHighPrice : List Char
  tcgplayerMarketPrice : List Char
  set_name : List Char
deriving DecidableEq, Repr

/-- Embedding of the card_info construction (price extraction lines of the
processing loop): nulls coerced to 0.0 by `safe_float`, market price
falling back to the mid price when zero, all four prices rendered with
two decimals. -/
def mkCardInfo (set_name : List Char) (product_id : ℕ) (det : ProductDetails)
    (price_info : PriceInfo) : CardInfo :=
  let low_price := safe_float price_info.lowPrice
  let mid_price := safe_float price_info.midPrice
  let high_price := safe_float price_info.highPrice
  let market_price0 := safe_float price_info.marketPrice
  let market_price := if market_price0 = 0 then safe_float price_info.midPrice
                      else market_price0
  { name := det.name
    tcgplayerProductId := product_id
    tcgplayerLowPrice := formatTwoDec low_price
    tcgplayerMidPrice := formatTwoDec mid_price
    tcgplayerHighPrice := formatTwoDec high_price
    tcgplayerMarketPrice := formatTwoDec market_price
    set_name := set_name }

/-- Rarity-partitioned sub-buckets, modelling the Python dict keyed by
rarity name. -/
def RarityBuckets (α : Type) : Type := List (List Char × List α)

instance {α : Type} [DecidableEq α] : DecidableEq (RarityBuckets α) :=
  inferInstanceAs (DecidableEq (List (List Char × List α)))

/-- Look up a rarity key; a missing key yields the empty list. -/
def bucketGet {α : Type} : RarityBuckets α → List Char → List α
  | [], _ => []
  | (k, v) :: rest, r => if k = r then v else bucketGet rest r

/-- Dictionary key-membership test. -/
def bucketHasKey {α : Type} : RarityBuckets α → List Char → Bool
  | [], _ => false
  | (k, _) :: rest, r => if k = r then true else bucketHasKey rest r

/-- Append a record to the list stored under a rarity key; a missing key
leaves the buckets unchanged (the callers guard on key presence). -/
def bucketAppend {α : Type} : RarityBuckets α → List Char → α → RarityBuckets α
  | [], _, _ => []
  | (k, v) :: rest, r, c =>
    if k = r then (k, v ++ [c]) :: rest else (k, v) :: bucketAppend rest r c

/-- Fresh empty buckets for a rarity list (`{r: [] for r in rarities}`). -/
def initBuckets {α : Type} (rarities : List (List Char)) : RarityBuckets α :=
  rarities.map (fun r => (r, []))

/-- Per-set result structure of the catalog pipeline. -/
structure SetData where
  nonFoil : List CardInfo
  foil : List CardInfo
  sealedList : List CardInfo
  preconstructed : List CardInfo
  nonFoilByName : List CardInfo
  foilByName : List CardInfo
  sealedByName : List CardInfo
  preconstructedByName : List CardInfo
  nonFoilByRarityPrice : RarityBuckets CardInfo
  foilByRarityPrice : RarityBuckets CardInfo
  nonFoilByRarityName : RarityBuckets CardInfo
  foilByRarityName : RarityBuckets CardInfo
deriving DecidableEq

/-- Fresh per-set structure as initialized by the processing loop. -/
def initSetData (rarities : List (List Char)) : SetData :=
  { nonFoil := [], foil := [], sealedList := [], preconstructed := []
    nonFoilByName := [], foilByName := [], sealedByName := [], preconstructedByName := []
    nonFoilByRarityPrice := initBuckets rarities
    foilByRarityPrice := initBuckets rarities
    nonFoilByRarityName := initBuckets rarities
    foilByRarityName := initBuckets rarities }

/-- Embedding of the record-routing block of the processing loop: sealed
records go to the sealed bucket, preconstructed singles to the
preconstructed bucket, and regular cards to the matching rarity
sub-buckets (when the rarity is known) and to the flat foil or nonFoil
bucket. -/
def insertCard (rarities : List (List Char)) (sd : SetData) (c : CardInfo)
    (is_sealed is_preconstructed is_foil : Bool) (rarity : List Char) : SetData :=
  if is_sealed then { sd with sealedList := sd.sealedList ++ [c] }
  else if is_preconstructed then { sd with preconstructed := sd.preconstructed ++ [c] }
  else
    let sd1 :=
      if rarity ≠ [] ∧ rarity ∈ rarities then
        if is_foil then
          { sd with foilByRarityPrice := bucketAppend sd.foilByRarityPrice rarity c
                    foilByRarityName := bucketAppend sd.foilByRarityName rarity c }
        else
          { sd with nonFoilByRarityPrice := bucketAppend sd.nonFoilByRarityPrice rarity c
                    nonFoilByRarityName := bucketAppend sd.nonFoilByRarityName rarity c }
      else sd
    if is_foil then { sd1 with foil := sd1.foil ++ [c] }
    else { sd1 with nonFoil := sd1.nonFoil ++ [c] }

/-- Stable product identifiers already present across the four flat
category buckets of a set (`existing_product_ids`); a falsy (zero)
identifier is never collected. -/
def existingIds (sd : SetData) : List ℕ :=
  (sd.nonFoil ++ sd.foil ++ sd.sealedList ++ sd.preconstructed).filterMap
    (fun c => if c.tcgplayerProductId ≠ 0 then some c.tcgplayerProductId else none)

/-- Embedding of one iteration of the processing loop over the price map:
skip identifiers already present, skip products without product info or
with an empty name, otherwise classify, price and insert. -/
def processOne (rarities : List (List Char)) (set_name : List Char)
    (product_info : ℕ → Option ProductDetails) (ids : List ℕ)
    (sd : SetData) (rec : ℕ × PriceInfo) : SetData :=
  if rec.1 ∈ ids then sd
  else
    match product_info rec.1 with
    | none => sd
    | some det =>
      if det.name = [] then sd
      else
        insertCard rarities sd (mkCardInfo set_name rec.1 det rec.2)
          (classifySealed det.name set_name) (classifyPrecon det.name)
          (classifyFoil det.name set_name rec.2.subTypeName)
          (if classifySealed det.name set_name then [] else det.rarity)

/-- Embedding of the per-set merge pass: compute the existing identifiers
once, then process the batch of (productId, pricing) records in order. -/
def processRecords (rarities : List (List Char)) (set_name : List Char)
    (product_info : ℕ → Option ProductDetails)
    (sd : SetData) (batch : List (ℕ × PriceInfo)) : SetData :=
  let ids := existingIds sd
  batch.foldl (processOne rarities set_name product_info ids) sd

/-! ## Marketplace listing filter (`ebay_parser.py`) -/

/-- EXCLUSION_KEYWORDS of the listing filter (the later revision, with the
curio / booster box / movie keywords). -/
def EXCLUSION_KEYWORDS : List (List Char) :=
  [("bulk".toList), ("lot".toList), ("lots".toList), ("bundle".toList),
   ("bundles".toList), ("multiple".toList), ("set of".toList), ("pack of".toList),
   ("group of".toList), ("collection".toList), ("playset".toList), ("play set".toList),
   ("curio".toList), ("booster box".toList), ("movie".toList), ("movies".toList),
   ("dvd".toList), ("blu-ray".toList), ("film".toList)]

/-- GRADED_KEYWORDS of the listing filter. -/
def GRADED_KEYWORDS : List (List Char) :=
  [("psa".toList), ("bgs".toList), ("cgc".toList), ("sgc".toList), ("hga".toList),
   ("gma".toList), ("kga".toList), ("psa 10".toList), ("psa 9".toList),
   ("psa 8".toList), ("bgs 10".toList), ("bgs 9".toList), ("bgs 8".toList),
   ("cgc 10".toList), ("cgc 9".toList), ("cgc 8".toList), ("graded".toList),
   ("slab".toList), ("slabbed".toList)]

/-- A marketplace listing as consumed by the filter: the Buy-API shape,
with a string title and a list of category-path segments. -/
structure Listing where
  title : List Char
  categoryPath : List (List Char)
deriving DecidableEq, Repr

/-- Embedding of `is_graded_card`: some graded keyword occurs in the
lowercased title. -/
def is_graded_card (item : Listing) : Bool :=
  let title := pyLower item.title
  GRADED_KEYWORDS.any (fun keyword => containsSub keyword title)

/-- Embedding of `should_exclude_item`: some exclusion keyword occurs in
the lowercased title or in the lowercased space-joined category path. -/
def should_exclude_item (item : Listing) : Bool :=
  let title := pyLower item.title
  let category_path := pyLower (List.intercalate ([' ']) item.categoryPath)
  EXCLUSION_KEYWORDS.any
    (fun keyword => containsSub keyword title || containsSub keyword category_path)

/-- Combined exclusion as applied in the bulk-fetch flow: graded listings
are filtered first, then bulk/lot listings. -/
def listingExcluded (item : Listing) : Bool :=
  is_graded_card item || should_exclude_item item

/-- Embedding of `is_foil_item` on a Buy-API listing: a non-foil marker in
the title forces non-foil; otherwise any foil indicator makes it foil. -/
def is_foil_item (item : Listing) : Bool :=
  let title := pyLower item.title
  if [("nonfoil".toList), ("non-foil".toList), ("non foil".toList)].any
      (fun keyword => containsSub keyword title) then false
  else [("foil".toList), ("holo".toList), ("holofoil".toList), ("foil card".toList),
        ("foil version".toList)].any (fun keyword => containsSub keyword title)

/-! ## Title normalization and word-boundary matching (`ebay_bulk_fetch.py`) -/

/-- Model of `normalize_to_american_english` (NFD decomposition followed by
dropping combining marks): a finite table maps the common Latin accented
characters to their base letter, standalone combining diacritical marks
are dropped, and every other character is kept. -/
def stripDiacritic (c : Char) : Option Char :=
  if 0x300 ≤ c.toNat ∧ c.toNat ≤ 0x36F then none
  else some (
    match c with
    | 'á' | 'à' | 'â' | 'ä' | 'ã' | 'å' => 'a'
    | 'é' | 'è' | 'ê' | 'ë' => 'e'
    | 'í' | 'ì' | 'î' | 'ï' => 'i'
    | 'ó' | 'ò' | 'ô' | 'ö' | 'õ' => 'o'
    | 'ú' | 'ù' | 'û' | 'ü' => 'u'
    | 'ý' | 'ÿ' => 'y'
    | 'ñ' => 'n'
    | 'ç' => 'c'
    | 'Á' | 'À' | 'Â' | 'Ä' | 'Ã' | 'Å' => 'A'
    | 'É' | 'È' | 'Ê' | 'Ë' => 'E'
    | 'Í' | 'Ì' | 'Î' | 'Ï' => 'I'
    | 'Ó' | 'Ò' | 'Ô' | 'Ö' | 'Õ' => 'O'
    | 'Ú' | 'Ù' | 'Û' | 'Ü' => 'U'
    | 'Ý' => 'Y'
    | 'Ñ' => 'N'
    | 'Ç' => 'C'
    | other => other)

/-- Diacritic-stripping normalization of a whole string. -/
def normalize_to_american_english (text : List Char) : List Char :=
  text.filterMap stripDiacritic

/-- Word character in the sense of the regex `\b` boundary (ASCII `\w`). -/
def isWordChar (c : Char) : Bool := c.isAlphanum || c = '_'

/-- Word-character test on an optional character; out-of-string positions
count as non-word. -/
def isWordOpt : Option Char → Bool
  | none => false
  | some c => isWordChar c

/-- Regex word boundary between two adjacent (optional) characters. -/
def wordBoundary (a b : Option Char) : Bool := isWordOpt a != isWordOpt b

/-- Does the literal pattern match at the head of `rest` with `\b` on both
sides, `prev` being the character immediately before `rest`. -/
def wbMatchHere (prev : Option Char) (pat rest : List Char) : Bool :=
  wordBoundary prev pat.head? && pat.isPrefixOf rest &&
    wordBoundary pat.getLast? (rest.drop pat.length).head?

/-- Scan of `re.search` for the escaped-literal pattern `\b pat \b`. -/
def wbSearchAux (prev : Option Char) (pat : List Char) : List Char → Bool
  | [] => wbMatchHere prev pat []
  | c :: rest => wbMatchHere prev pat (c :: rest) || wbSearchAux (some c) pat rest

/-- Model of `re.search(r"\b" + re.escape(pat) + r"\b", s)` as a Bool. -/
def wbSearch (pat s : List Char) : Bool := wbSearchAux none pat s

/-! ## Title matcher (`extract_card_info_from_title`) -/

/-- Per-set information of a card in the master card list. -/
structure SetInfo where
  set_name : List Char
  rarity : List Char
  slug : List Char
deriving DecidableEq, Repr

/-- Master-card-list entry value. -/
structure CardData where
  sets : List SetInfo
deriving DecidableEq, Repr

/-- Promo set names excluded by the matcher, already normalized and
lowercased (all four entries are ASCII, so normalization is identity). -/
def normalizedPromoSets : List (List Char) :=
  [pyLower (normalize_to_american_english ("Dust Reward Promos".toList)),
   pyLower (normalize_to_american_english ("Arthurian Legends Promo".toList)),
   pyLower (normalize_to_american_english ("dustRewardPromo".toList)),
   pyLower (normalize_to_american_english ("arthurianLegendsPromo".toList))]

/-- Embedding of `extract_card_info_from_title`: reject promo titles,
then try reference card names sorted by length descending with
word-boundary matching, and for a hit try that card's sets sorted by
set-name length descending, skipping empty and promo set names. -/
def extract_card_info_from_title (title : List Char)
    (master_card_list : List (List Char × CardData)) : Option (List Char × List Char) :=
  let normalized_title := pyLower (normalize_to_american_english title)
  if containsSub ("promo".toList) normalized_title then none
  else
    let cards_sorted := master_card_list.insertionSort
      (fun a b => (b.1).length ≤ (a.1).length)
    cards_sorted.findSome? (fun card =>
      let normalized_card_name := pyLower (normalize_to_american_english card.1)
      if wbSearch normalized_card_name normalized_title then
        let sets_sorted := card.2.sets.insertionSort
          (fun a b => b.set_name.length ≤ a.set_name.length)
        sets_sorted.findSome? (fun set_info =>
          if set_info.set_name = [] then none
          else
            let normalized_set_name := pyLower (normalize_to_american_english set_info.set_name)
            if normalized_set_name ∈ normalizedPromoSets then none
            else if wbSearch normalized_set_name normalized_title then
              some (card.1, set_info.set_name)
            else none)
      else none)

/-! ## Median aggregation (`calculate_medians`) -/

/-- Python `sorted` on a list of numbers, modelled by insertion sort (any
comparison sort of rationals returns the same, unique, sorted list). -/
def pySorted (l : List ℚ) : List ℚ := l.insertionSort (fun a b => a ≤ b)

/-- Embedding of `get_median`: 0.0 for the empty list, the middle element
of the sorted list for odd length, the mean of the two middle elements
for even length. -/
def get_median (prices : List ℚ) : ℚ :=
  if prices = [] then 0
  else
    let sorted_prices := pySorted prices
    let n := sorted_prices.length
    if n % 2 = 0 then (sorted_prices.getD (n / 2 - 1) 0 + sorted_prices.getD (n / 2) 0) / 2
    else sorted_prices.getD (n / 2) 0

/-- Embedding of the market-price formula of `calculate_medians`: the mean
of the sold and current medians when both are positive, else the sold
median when positive, else the current median. -/
def medianMarketPrice (sold_prices current_prices : List ℚ) : ℚ :=
  let median_sold := get_median sold_prices
  let median_current := get_median current_prices
  if median_sold > 0 ∧ median_current > 0 then (median_sold + median_current) / 2
  else if median_sold > 0 then median_sold
  else median_current

/-! ## Currency normalization (`get_exchange_rate_to_usd`, `convert_price_to_usd`) -/

/-- Process-lifetime exchange-rate cache, keyed by uppercased currency
code. -/
def RateCache : Type := List (List Char × ℚ)

/-- Cache lookup (first matching key). -/
def rateLookup : RateCache → List Char → Option ℚ
  | [], _ => none
  | (k, v) :: rest, c => if k = c then some v else rateLookup rest c

/-- Embedding of `get_exchange_rate_to_usd`.  The external rate source is
a parameter `fetch`; `none` models a request exception or a response
without a USD rate (both print a warning and degrade to a multiplier of
1.0), and a falsy (zero) fetched rate takes the same missing-rate branch.
Returns (rate, updated cache, warning issued). -/
def get_exchange_rate_to_usd (currency : List Char) (cache : RateCache)
    (fetch : List Char → Option ℚ) : ℚ × RateCache × Bool :=
  if pyUpper currency = ("USD".toList) then (1, cache, false)
  else
    let cur := pyUpper currency
    match rateLookup cache cur with
    | some rate => (rate, cache, false)
    | none =>
      match fetch cur with
      | some usd_rate =>
        if usd_rate ≠ 0 then (usd_rate, (cur, usd_rate) :: cache, false)
        else (1, cache, true)
      | none => (1, cache, true)

/-- Embedding of `convert_price_to_usd`: USD amounts are returned
unchanged without a rate lookup; otherwise the amount is multiplied by
the looked-up rate. Returns (price, updated cache, warning issued). -/
def convert_price_to_usd (price_value : ℚ) (currency : List Char) (cache : RateCache)
    (fetch : List Char → Option ℚ) : ℚ × RateCache × Bool :=
  if pyUpper currency = ("USD".toList) then (price_value, cache, false)
  else
    let r := get_exchange_rate_to_usd currency cache fetch
    (price_value * r.1, r.2.1, r.2.2)

/-! ## Marketplace result structure (`_generate_card_data_from_medians`) -/

/-- Card entry of the marketplace output. -/
structure EbayCard where
  name : List Char
  price : List Char
  avgSoldPrice : List Char
  avgCurrentPrice : List Char
  condition : List Char
  rarity : List Char
  slug : List Char
  set_name : List Char
deriving DecidableEq, Repr

/-- Per-set result structure of the marketplace pipeline. -/
structure EbaySetData where
  nonFoil : List EbayCard
  foil : List EbayCard
  nonFoilByName : List EbayCard
  foilByName : List EbayCard
  nonFoilByRarityPrice : RarityBuckets EbayCard
  foilByRarityPrice : RarityBuckets EbayCard
  nonFoilByRarityName : RarityBuckets EbayCard
  foilByRarityName : RarityBuckets EbayCard
deriving DecidableEq

/-- Fresh per-set marketplace structure. -/
def initEbaySetData (rarities : List (List Char)) : EbaySetData :=
  { nonFoil := [], foil := [], nonFoilByName := [], foilByName := []
    nonFoilByRarityPrice := initBuckets rarities
    foilByRarityPrice := initBuckets rarities
    nonFoilByRarityName := initBuckets rarities
    foilByRarityName := initBuckets rarities }

/-- Embedding of the insertion block of `_generate_card_data_from_medians`:
a foil entry goes to the foil and foilByName lists and, when its rarity is
a key of the rarity dictionaries, to the foil rarity sub-buckets; a
non-foil entry goes to the corresponding non-foil lists. -/
def ebayInsert (sd : EbaySetData) (c : EbayCard) (is_foil : Bool)
    (rarity : List Char) : EbaySetData :=
  if is_foil then
    let sd1 := { sd with foil := sd.foil ++ [c], foilByName := sd.foilByName ++ [c] }
    let sd2 := if bucketHasKey sd1.foilByRarityPrice rarity then
        { sd1 with foilByRarityPrice := bucketAppend sd1.foilByRarityPrice rarity c }
      else sd1
    if bucketHasKey sd2.foilByRarityName rarity then
      { sd2 with foilByRarityName := bucketAppend sd2.foilByRarityName rarity c }
    else sd2
  else
    let sd1 := { sd with nonFoil := sd.nonFoil ++ [c], nonFoilByName := sd.nonFoilByName ++ [c] }
    let sd2 := if bucketHasKey sd1.nonFoilByRarityPrice rarity then
        { sd1 with nonFoilByRarityPrice := bucketAppend sd1.nonFoilByRarityPrice rarity c }
      else sd1
    if bucketHasKey sd2.nonFoilByRarityName rarity then
      { sd2 with nonFoilByRarityName := bucketAppend sd2.nonFoilByRarityName rarity c }
    else sd2

/-! ## Helper lemmas -/

/-- A one-character needle is a substring exactly when the character
occurs in the string. -/
theorem singleton_isInfix_iff_mem {α : Type} (a : α) (l : List α) :
    [a] <:+: l ↔ a ∈ l := by
  constructor
  · intro h
    exact h.sublist.mem (List.mem_singleton_self a)
  · intro h
    obtain ⟨s, t, rfl⟩ := List.append_of_mem h
    exact ⟨s, t, by simp⟩

/-- Rounding an integer-valued rational is the identity. -/
theorem rhe_intCast (z : ℤ) : rhe ((z : ℚ)) = z := by
  unfold rhe
  rw [Int.floor_intCast]
  norm_num

/-- Two-decimal formatting of a natural number value renders that many
whole dollars in cents. -/
theorem formatTwoDec_natCast (n : ℕ) : formatTwoDec ((n : ℚ)) = formatCents ((n : ℤ) * 100) := by
  unfold formatTwoDec
  rw [if_neg (not_lt.mpr (by positivity))]
  have h : ((n : ℚ)) * 100 = (((n : ℤ) * 100 : ℤ) : ℚ) := by push_cast; ring
  rw [h, rhe_intCast]

/-- Concrete rendering of the zero price. -/
theorem formatTwoDec_zero : formatTwoDec 0 = ("0.00".toList) := by
  have h : (0 : ℚ) = ((0 : ℕ) : ℚ) := by norm_num
  rw [h, formatTwoDec_natCast]
  decide

/-- Concrete rendering of the five-dollar price. -/
theorem formatTwoDec_five : formatTwoDec 5 = ("5.00".toList) := by
  have h : (5 : ℚ) = ((5 : ℕ) : ℚ) := by norm_num
  rw [h, formatTwoDec_natCast]
  decide

/-! ## C1 -/

/-- Claim C1 as stated is false on the code: this product name contains
"(Preconstructed Deck)" yet also matches the sealed-preconstructed
pattern "preconstructed deck box", which the cascade checks first, so the
record is routed to the sealed bucket, not the preconstructed one. -/
theorem preconDeck_name_routed_sealed_counterexample :
    (("(Preconstructed Deck)".toList) <:+:
        ("Preconstructed Deck Box (Preconstructed Deck)".toList)) ∧
    categorize ("Preconstructed Deck Box (Preconstructed Deck)".toList) ("Alpha".toList)
      = Category.sealedProduct := by
  decide

/-- Claim C1 (amended): a product name containing "(Preconstructed Deck)"
that does not match the sealed-preconstructed pattern is categorized as a
preconstructed single, never sealed, even if the name also contains a
sealed keyword elsewhere, and its record is appended to the
preconstructed bucket leaving the sealed bucket untouched. -/
theorem preconDeck_name_routed_preconstructed (name set_name : List Char)
    (h1 : ("(Preconstructed Deck)".toList) <:+: name)
    (h2 : is_sealed_preconstructed_product_name name = false) :
    categorize name set_name = Category.preconstructedSingle ∧
    classifySealed name set_name = false ∧
    ∀ (rarities : List (List Char)) (sd : SetData) (c : CardInfo) (f : Bool) (r : List Char),
      (insertCard rarities sd c (classifySealed name set_name) (classifyPrecon name) f r).preconstructed
          = sd.preconstructed ++ [c] ∧
      (insertCard rarities sd c (classifySealed name set_name) (classifyPrecon name) f r).sealedList
          = sd.sealedList := by
  have hsp : classifySealedPrecon name = false := h2
  have hp : classifyPrecon name = true := by
    simp only [classifyPrecon, hsp, if_false, is_preconstructed_single_name, containsSub,
      decide_eq_true_iff, Bool.false_eq_true]
    exact h1
  have hs : classifySealed name set_name = false := by
    simp [classifySealed, hsp, hp]
  refine ⟨by simp [categorize, hs, hp], hs, ?_⟩
  intro rarities sd c f r
  rw [hs, hp]
  simp [insertCard]

/-- Claim C1 witness: a plain preconstructed single is categorized and
routed as such. -/
theorem preconDeck_name_routed_preconstructed_witness :
    categorize ("Avatar (Preconstructed Deck)".toList) ("Alpha".toList)
        = Category.preconstructedSingle ∧
    (insertCard RARITIES (initSetData RARITIES)
        ⟨("Avatar (Preconstructed Deck)".toList), 7, [], [], [], [], ("Alpha".toList)⟩
        (classifySealed ("Avatar (Preconstructed Deck)".toList) ("Alpha".toList))
        (classifyPrecon ("Avatar (Preconstructed Deck)".toList)) false
        ("Ordinary".toList)).preconstructed
      = (initSetData RARITIES).preconstructed ++
          [⟨("Avatar (Preconstructed Deck)".toList), 7, [], [], [], [], ("Alpha".toList)⟩] := by
  have h := preconDeck_name_routed_preconstructed ("Avatar (Preconstructed Deck)".toList)
    ("Alpha".toList) (by decide) (by decide)
  exact ⟨h.1, (h.2.2 RARITIES (initSetData RARITIES) _ false ("Ordinary".toList)).1⟩

/-! ## C6 -/

/-- Claim C6 as stated is false on the code: the code only tests for an
opening parenthesis, so a name that contains "preconstructed deck" and a
closing parenthesis but no opening one satisfies the predicate although
the name does contain a parenthesis character. -/
theorem sealed_precon_predicate_counterexample :
    is_sealed_preconstructed_product_name ("Preconstructed Deck)".toList) = true ∧
    ¬ (("preconstructed deck box".toList) <:+: pyLower ("Preconstructed Deck)".toList) ∨
       ("preconstructed deck:".toList) <:+: pyLower ("Preconstructed Deck)".toList) ∨
       (("preconstructed deck".toList) <:+: pyLower ("Preconstructed Deck)".toList) ∧
        '(' ∉ ("Preconstructed Deck)".toList) ∧ ')' ∉ ("Preconstructed Deck)".toList))) := by
  decide

/-- Claim C6 (amended): the sealed-preconstructed predicate holds for a
name exactly when the lowercased name contains "preconstructed deck box",
or "preconstructed deck:", or "preconstructed deck" while no opening
parenthesis occurs anywhere in the original non-lowercased name; the
empty (falsy) name never satisfies it. -/
theorem sealed_precon_predicate_decomposition (name : List Char) :
    (is_sealed_preconstructed_product_name name = true ↔
      (("preconstructed deck box".toList) <:+: pyLower name ∨
       ("preconstructed deck:".toList) <:+: pyLower name ∨
       (("preconstructed deck".toList) <:+: pyLower name ∧ '(' ∉ name))) ∧
    is_sealed_preconstructed_product_name [] = false := by
  refine ⟨?_, by decide⟩
  by_cases h : name = []
  · subst h
    decide
  · simp only [is_sealed_preconstructed_product_name, if_neg h, containsSub,
      Bool.or_eq_true, Bool.and_eq_true, decide_eq_true_iff, Bool.not_eq_true',
      decide_eq_false_iff_not]
    rw [singleton_isInfix_iff_mem]
    tauto

/-! ## C2 -/

/-- Claim C2: the catalog price extraction coerces null values to 0.0,
substitutes the mid price when the coerced market price is zero, formats
all four outputs with two decimals, and always succeeds (it is a total
function of the four nullable inputs). -/
theorem catalog_price_extraction (set_name : List Char) (product_id : ℕ)
    (det : ProductDetails) (low mid high market : Option ℚ) (sub : List Char)
    (c : CardInfo)
    (hc : c = mkCardInfo set_name product_id det ⟨low, mid, high, market, sub⟩) :
    c.tcgplayerLowPrice = formatTwoDec (safe_float low) ∧
    c.tcgplayerMidPrice = formatTwoDec (safe_float mid) ∧
    c.tcgplayerHighPrice = formatTwoDec (safe_float high) ∧
    c.tcgplayerMarketPrice
        = formatTwoDec (if safe_float market = 0 then safe_float mid else safe_float market) ∧
    (low = none → c.tcgplayerLowPrice = ("0.00".toList)) ∧
    ((market = none ∨ market = some 0) →
      c.tcgplayerMarketPrice = formatTwoDec (safe_float mid)) := by
  subst hc
  refine ⟨rfl, rfl, rfl, rfl, ?_, ?_⟩
  · intro h
    subst h
    show formatTwoDec (safe_float none) = _
    rw [show safe_float none = 0 from rfl, formatTwoDec_zero]
  · intro h
    show formatTwoDec (if safe_float market = 0 then safe_float mid else safe_float market)
        = formatTwoDec (safe_float mid)
    rcases h with h | h <;> subst h <;> simp [safe_float]

/-- Claim C2 witness: the spec round trip; a record with null low price,
mid 5.00, high 10.00 and market 0 renders market "5.00" and low "0.00". -/
theorem catalog_price_extraction_witness :
    (mkCardInfo ("Alpha".toList) 1 ⟨("Sparkmage".toList), ("Ordinary".toList)⟩
        ⟨none, some 5, some 10, some 0, ("Normal".toList)⟩).tcgplayerMarketPrice
      = ("5.00".toList) ∧
    (mkCardInfo ("Alpha".toList) 1 ⟨("Sparkmage".toList), ("Ordinary".toList)⟩
        ⟨none, some 5, some 10, some 0, ("Normal".toList)⟩).tcgplayerLowPrice
      = ("0.00".toList) := by
  have h := catalog_price_extraction ("Alpha".toList) 1
    ⟨("Sparkmage".toList), ("Ordinary".toList)⟩ none (some 5) (some 10) (some 0)
    ("Normal".toList) _ rfl
  refine ⟨?_, h.2.2.2.2.1 rfl⟩
  rw [h.2.2.2.2.2 (Or.inr rfl), show safe_float (some 5) = 5 from rfl, formatTwoDec_five]

/-! ## Median helper lemmas -/

/-- Sorting permutes the list. -/
theorem pySorted_perm (l : List ℚ) : (pySorted l).Perm l :=
  List.perm_insertionSort _ l

/-- Sorting preserves the length. -/
theorem length_pySorted (l : List ℚ) : (pySorted l).length = l.length :=
  (pySorted_perm l).length_eq

/-- Every lower bound of a non-empty price list bounds its median. -/
theorem le_get_median (l : List ℚ) (a : ℚ) (hne : l ≠ []) (h : ∀ x ∈ l, a ≤ x) :
    a ≤ get_median l := by
  simp only [get_median, if_neg hne]
  have hmem : ∀ x ∈ pySorted l, a ≤ x := fun x hx => h x ((pySorted_perm l).mem_iff.mp hx)
  have hpos : 0 < (pySorted l).length := by
    rw [length_pySorted]
    exact List.length_pos.mpr hne
  by_cases hpar : (pySorted l).length % 2 = 0
  · rw [if_pos hpar]
    have hi1 : (pySorted l).length / 2 - 1 < (pySorted l).length := by omega
    have hi2 : (pySorted l).length / 2 < (pySorted l).length := by omega
    rw [List.getD_eq_getElem (pySorted l) 0 hi1, List.getD_eq_getElem (pySorted l) 0 hi2]
    have b1 := hmem _ (List.getElem_mem hi1)
    have b2 := hmem _ (List.getElem_mem hi2)
    linarith
  · rw [if_neg hpar]
    have hi : (pySorted l).length / 2 < (pySorted l).length := by omega
    rw [List.getD_eq_getElem (pySorted l) 0 hi]
    exact hmem _ (List.getElem_mem hi)

/-- Every upper bound of a non-empty price list bounds its median. -/
theorem get_median_le (l : List ℚ) (b : ℚ) (hne : l ≠ []) (h : ∀ x ∈ l, x ≤ b) :
    get_median l ≤ b := by
  simp only [get_median, if_neg hne]
  have hmem : ∀ x ∈ pySorted l, x ≤ b := fun x hx => h x ((pySorted_perm l).mem_iff.mp hx)
  have hpos : 0 < (pySorted l).length := by
    rw [length_pySorted]
    exact List.length_pos.mpr hne
  by_cases hpar : (pySorted l).length % 2 = 0
  · rw [if_pos hpar]
    have hi1 : (pySorted l).length / 2 - 1 < (pySorted l).length := by omega
    have hi2 : (pySorted l).length / 2 < (pySorted l).length := by omega
    rw [List.getD_eq_getElem (pySorted l) 0 hi1, List.getD_eq_getElem (pySorted l) 0 hi2]
    have b1 := hmem _ (List.getElem_mem hi1)
    have b2 := hmem _ (List.getElem_mem hi2)
    linarith
  · rw [if_neg hpar]
    have hi : (pySorted l).length / 2 < (pySorted l).length := by omega
    rw [List.getD_eq_getElem (pySorted l) 0 hi]
    exact hmem _ (List.getElem_mem hi)

/-- The median of a list of non-negative prices is non-negative (also for
the empty list, where it is the 0.0 default). -/
theorem get_median_nonneg (l : List ℚ) (h : ∀ x ∈ l, 0 ≤ x) : 0 ≤ get_median l := by
  by_cases hne : l = []
  · subst hne
    simp [get_median]
  · exact le_get_median l 0 hne h

/-- The median of an odd-length list is one of its elements. -/
theorem get_median_mem_of_odd (l : List ℚ) (h : Odd l.length) : get_median l ∈ l := by
  have hne : l ≠ [] := by
    intro h0
    subst h0
    simp [Nat.odd_iff] at h
  simp only [get_median, if_neg hne]
  have hpar : (pySorted l).length % 2 = 1 := by
    rw [length_pySorted]
    exact Nat.odd_iff.mp h
  rw [if_neg (by omega)]
  have hi : (pySorted l).length / 2 < (pySorted l).length := by omega
  rw [List.getD_eq_getElem (pySorted l) 0 hi]
  exact (pySorted_perm l).subset (List.getElem_mem hi)

/-! ## C3 -/

/-- Claim C3: for non-negative observed prices, the grouped market price
is the mean of the sold and current medians when both are positive, the
positive one when exactly one is positive, and 0.0 when neither is; no
observations at all also yield 0.0 (totally, with no error path). -/
theorem marketplace_market_price_fallback (sold current : List ℚ)
    (hs : ∀ x ∈ sold, 0 ≤ x) (hc : ∀ x ∈ current, 0 ≤ x) :
    (0 < get_median sold → 0 < get_median current →
      medianMarketPrice sold current = (get_median sold + get_median current) / 2) ∧
    (0 < get_median sold → ¬ 0 < get_median current →
      medianMarketPrice sold current = get_median sold) ∧
    (¬ 0 < get_median sold → 0 < get_median current →
      medianMarketPrice sold current = get_median current) ∧
    (¬ 0 < get_median sold → ¬ 0 < get_median current →
      medianMarketPrice sold current = 0) ∧
    (sold = [] → current = [] → medianMarketPrice sold current = 0) := by
  simp only [medianMarketPrice]
  refine ⟨?_, ?_, ?_, ?_, ?_⟩
  · intro h1 h2
    rw [if_pos ⟨h1, h2⟩]
  · intro h1 h2
    rw [if_neg (fun hh => h2 hh.2), if_pos h1]
  · intro h1 h2
    rw [if_neg (fun hh => h1 hh.1), if_neg h1]
  · intro h1 h2
    rw [if_neg (fun hh => h1 hh.1), if_neg h1]
    have hnn := get_median_nonneg current hc
    linarith [not_lt.mp h2]
  · intro h1 h2
    subst h1
    subst h2
    simp [get_median]

/-- Claim C3 witness: with no observations at all the market price is
0.0. -/
theorem marketplace_market_price_fallback_witness :
    medianMarketPrice ([] : List ℚ) ([] : List ℚ) = 0 :=
  (marketplace_market_price_fallback [] [] (by simp) (by simp)).2.2.2.2 rfl rfl

/-! ## C10 -/

/-- Claim C10: the median of the empty price list is 0.0; the median of a
non-empty list lies between any lower and upper bound of the list (in
particular between its minimum and maximum); for odd length it is an
element of the list; and consequently the aggregated marketplace price is
non-negative whenever all observed prices are. -/
theorem median_bounds_and_nonneg :
    get_median [] = 0 ∧
    (∀ (l : List ℚ) (a b : ℚ), l ≠ [] → (∀ x ∈ l, a ≤ x) → (∀ x ∈ l, x ≤ b) →
      a ≤ get_median l ∧ get_median l ≤ b) ∧
    (∀ l : List ℚ, Odd l.length → get_median l ∈ l) ∧
    (∀ sold current : List ℚ, (∀ x ∈ sold, 0 ≤ x) → (∀ x ∈ current, 0 ≤ x) →
      0 ≤ medianMarketPrice sold current) := by
  refine ⟨by simp [get_median], ?_, get_median_mem_of_odd, ?_⟩
  · intro l a b hne ha hb
    exact ⟨le_get_median l a hne ha, get_median_le l b hne hb⟩
  · intro sold current hs hc
    simp only [medianMarketPrice]
    split_ifs with h1 h2
    · linarith [h1.1, h1.2]
    · exact le_of_lt h2
    · exact get_median_nonneg current hc

/-- Claim C10 witness: concrete one-element lists. -/
theorem median_bounds_and_nonneg_witness :
    get_median [(2 : ℚ)] ∈ [(2 : ℚ)] ∧ (1 : ℚ) ≤ get_median [(2 : ℚ)] ∧
    0 ≤ medianMarketPrice [(2 : ℚ)] [] := by
  refine ⟨median_bounds_and_nonneg.2.2.1 [(2 : ℚ)] (by simp), ?_, ?_⟩
  · exact (median_bounds_and_nonneg.2.1 [(2 : ℚ)] 1 3 (by simp) (by norm_num) (by norm_num)).1
  · exact median_bounds_and_nonneg.2.2.2 [(2 : ℚ)] [] (by norm_num) (by simp)

/-! ## C9 -/

/-- Claim C9: converting a USD amount returns it unchanged with no rate
lookup (the result is fixed whatever the rate source or cache), and under
a failed rate lookup (network error or missing USD rate) on an uncached
currency the conversion degrades to the 1.0 multiplier, returning the
amount with a warning rather than an error. -/
theorem currency_conversion_degrade :
    (∀ (price : ℚ) (currency : List Char) (cache : RateCache)
        (fetch : List Char → Option ℚ),
      pyUpper currency = ("USD".toList) →
      convert_price_to_usd price currency cache fetch = (price, cache, false)) ∧
    (∀ (price : ℚ) (currency : List Char) (cache : RateCache)
        (fetch : List Char → Option ℚ),
      pyUpper currency ≠ ("USD".toList) →
      rateLookup cache (pyUpper currency) = none →
      fetch (pyUpper currency) = none →
      convert_price_to_usd price currency cache fetch = (price, cache, true)) := by
  constructor
  · intro price currency cache fetch h
    simp [convert_price_to_usd, h]
  · intro price currency cache fetch h hlook hfetch
    simp only [convert_price_to_usd]
    rw [if_neg h]
    simp only [get_exchange_rate_to_usd]
    rw [if_neg h, hlook, hfetch]
    simp

/-- Claim C9 witness: a 10.00 price in EUR under a failed lookup converts
to 10.00 with a warning, and a lowercase "usd" price is returned as is. -/
theorem currency_conversion_degrade_witness :
    convert_price_to_usd 10 ("EUR".toList) [] (fun _ => none) = (10, [], true) ∧
    convert_price_to_usd 10 ("usd".toList) [] (fun _ => none) = (10, [], false) :=
  ⟨currency_conversion_degrade.2 10 ("EUR".toList) [] (fun _ => none) (by decide) rfl rfl,
   currency_conversion_degrade.1 10 ("usd".toList) [] (fun _ => none) (by decide)⟩

/-! ## C7 -/

/-- Claim C7 as stated is false on the code: the category path is joined
into one space-separated string before the keyword scan, so the keyword
"set of" matches across two adjacent segments even though no single
segment (and not the title) contains any exclusion keyword and the
listing is not graded. -/
theorem listing_exclusion_counterexample :
    listingExcluded ⟨("zzz".toList), [("toy set".toList), ("of doom".toList)]⟩ = true ∧
    ¬ ((∃ kw ∈ EXCLUSION_KEYWORDS,
          kw <:+: pyLower ("zzz".toList) ∨
          ∃ seg ∈ [("toy set".toList), ("of doom".toList)], kw <:+: pyLower seg) ∨
       is_graded_card ⟨("zzz".toList), [("toy set".toList), ("of doom".toList)]⟩ = true) := by
  decide

/-- Claim C7 (amended): a listing is excluded exactly when its lowercased
title or its lowercased space-joined category path (in which a keyword
may span adjacent segments) contains an exclusion keyword, or the listing
is graded; in particular the graded foil title is excluded even though it
tests as foil. -/
theorem listing_exclusion_characterization :
    (∀ item : Listing,
      (listingExcluded item = true ↔
        ((∃ kw ∈ EXCLUSION_KEYWORDS,
            kw <:+: pyLower item.title ∨
            kw <:+: pyLower (List.intercalate ([' ']) item.categoryPath)) ∨
         (∃ kw ∈ GRADED_KEYWORDS, kw <:+: pyLower item.title)))) ∧
    listingExcluded
        ⟨("PSA 10 Philosopher".toList) ++ (apos :: ("s Stone Alpha Foil".toList)), []⟩
      = true ∧
    is_foil_item
        ⟨("PSA 10 Philosopher".toList) ++ (apos :: ("s Stone Alpha Foil".toList)), []⟩
      = true := by
  refine ⟨?_, by decide, by decide⟩
  intro item
  have hg : is_graded_card item = true ↔
      ∃ kw ∈ GRADED_KEYWORDS, kw <:+: pyLower item.title := by
    simp only [is_graded_card, List.any_eq_true, containsSub, decide_eq_true_iff]
  have he : should_exclude_item item = true ↔
      ∃ kw ∈ EXCLUSION_KEYWORDS,
        kw <:+: pyLower item.title ∨
        kw <:+: pyLower (List.intercalate ([' ']) item.categoryPath) := by
    simp only [should_exclude_item, List.any_eq_true, containsSub, Bool.or_eq_true,
      decide_eq_true_iff]
  rw [listingExcluded, Bool.or_eq_true, hg, he]
  exact or_comm

/-! ## Bucket helper lemmas -/

/-- A member of an appended rarity bucket is an old member or the new
record. -/
theorem mem_bucketGet_bucketAppend {α : Type} (b : RarityBuckets α) (r r' : List Char)
    (c c' : α) (h : c' ∈ bucketGet (bucketAppend b r c) r') :
    c' ∈ bucketGet b r' ∨ c' = c := by
  induction b with
  | nil =>
    simp [bucketAppend, bucketGet] at h
  | cons kv rest ih =>
    obtain ⟨k, v⟩ := kv
    simp only [bucketAppend] at h
    by_cases hk : k = r
    · rw [if_pos hk] at h
      simp only [bucketGet] at h ⊢
      by_cases hk' : k = r'
      · rw [if_pos hk'] at h ⊢
        rcases List.mem_append.mp h with h | h
        · exact Or.inl h
        · exact Or.inr (List.mem_singleton.mp h)
      · rw [if_neg hk'] at h ⊢
        exact Or.inl h
    · rw [if_neg hk] at h
      simp only [bucketGet] at h ⊢
      by_cases hk' : k = r'
      · rw [if_pos hk'] at h ⊢
        exact Or.inl h
      · rw [if_neg hk'] at h ⊢
        exact ih h

/-- Freshly initialized rarity buckets are empty under every key. -/
theorem bucketGet_initBuckets {α : Type} (rarities : List (List Char)) (r : List Char) :
    bucketGet (initBuckets (α := α) rarities) r = [] := by
  induction rarities with
  | nil => rfl
  | cons a l ih =>
    show bucketGet ((a, ([] : List α)) :: initBuckets l) r = []
    simp only [bucketGet]
    split_ifs
    · rfl
    · exact ih

/-- Sub-bucket containment invariant of the catalog result structure:
every record in a rarity sub-bucket also appears in its parent flat
bucket. -/
def SubInv (sd : SetData) : Prop :=
  (∀ r c, c ∈ bucketGet sd.foilByRarityPrice r → c ∈ sd.foil) ∧
  (∀ r c, c ∈ bucketGet sd.foilByRarityName r → c ∈ sd.foil) ∧
  (∀ r c, c ∈ bucketGet sd.nonFoilByRarityPrice r → c ∈ sd.nonFoil) ∧
  (∀ r c, c ∈ bucketGet sd.nonFoilByRarityName r → c ∈ sd.nonFoil)

/-- Sub-bucket containment invariant of the marketplace result
structure. -/
def EbaySubInv (sd : EbaySetData) : Prop :=
  (∀ r c, c ∈ bucketGet sd.foilByRarityPrice r → c ∈ sd.foil) ∧
  (∀ r c, c ∈ bucketGet sd.foilByRarityName r → c ∈ sd.foil) ∧
  (∀ r c, c ∈ bucketGet sd.nonFoilByRarityPrice r → c ∈ sd.nonFoil) ∧
  (∀ r c, c ∈ bucketGet sd.nonFoilByRarityName r → c ∈ sd.nonFoil)


/-- The invariant holds for a freshly initialized catalog set
structure. -/
theorem subInv_initSetData (rarities : List (List Char)) : SubInv (initSetData rarities) := by
  refine ⟨?_, ?_, ?_, ?_⟩ <;>
    · intro r c h
      simp [initSetData, bucketGet_initBuckets] at h

/-- The invariant holds for a freshly initialized marketplace set
structure. -/
theorem ebaySubInv_initSetData (rarities : List (List Char)) :
    EbaySubInv (initEbaySetData rarities) := by
  refine ⟨?_, ?_, ?_, ?_⟩ <;>
    · intro r c h
      simp [initEbaySetData, bucketGet_initBuckets] at h

/-! ## C5 -/

/-- Claim C5: both insertion routines preserve the invariant that every
record in a rarity sub-bucket (price- or name-keyed, for its foil state)
also appears in its parent flat bucket, and each insertion appends the
record to exactly one of the flat category buckets (the four catalog
buckets nonFoil / foil / sealed / preconstructed, or the two marketplace
buckets nonFoil / foil), leaving the other flat buckets unchanged. -/
theorem bucket_routing_invariants :
    (∀ (rarities : List (List Char)) (sd : SetData) (c : CardInfo)
        (s p f : Bool) (r : List Char),
      SubInv sd → SubInv (insertCard rarities sd c s p f r)) ∧
    (∀ (rarities : List (List Char)) (sd : SetData) (c : CardInfo)
        (s p f : Bool) (r : List Char),
      ((insertCard rarities sd c s p f r).nonFoil = sd.nonFoil ∧
       (insertCard rarities sd c s p f r).foil = sd.foil ∧
       (insertCard rarities sd c s p f r).sealedList = sd.sealedList ++ [c] ∧
       (insertCard rarities sd c s p f r).preconstructed = sd.preconstructed) ∨
      ((insertCard rarities sd c s p f r).nonFoil = sd.nonFoil ∧
       (insertCard rarities sd c s p f r).foil = sd.foil ∧
       (insertCard rarities sd c s p f r).sealedList = sd.sealedList ∧
       (insertCard rarities sd c s p f r).preconstructed = sd.preconstructed ++ [c]) ∨
      ((insertCard rarities sd c s p f r).nonFoil = sd.nonFoil ∧
       (insertCard rarities sd c s p f r).foil = sd.foil ++ [c] ∧
       (insertCard rarities sd c s p f r).sealedList = sd.sealedList ∧
       (insertCard rarities sd c s p f r).preconstructed = sd.preconstructed) ∨
      ((insertCard rarities sd c s p f r).nonFoil = sd.nonFoil ++ [c] ∧
       (insertCard rarities sd c s p f r).foil = sd.foil ∧
       (insertCard rarities sd c s p f r).sealedList = sd.sealedList ∧
       (insertCard rarities sd c s p f r).preconstructed = sd.preconstructed)) ∧
    (∀ (sd : EbaySetData) (c : EbayCard) (f : Bool) (r : List Char),
      EbaySubInv sd → EbaySubInv (ebayInsert sd c f r)) ∧
    (∀ (sd : EbaySetData) (c : EbayCard) (f : Bool) (r : List Char),
      ((ebayInsert sd c f r).foil = sd.foil ++ [c] ∧
       (ebayInsert sd c f r).nonFoil = sd.nonFoil) ∨
      ((ebayInsert sd c f r).nonFoil = sd.nonFoil ++ [c] ∧
       (ebayInsert sd c f r).foil = sd.foil)) := by
  refine ⟨?_, ?_, ?_, ?_⟩
  · intro rarities sd c s p f r h
    obtain ⟨h1, h2, h3, h4⟩ := h
    simp only [insertCard]
    split_ifs
    all_goals first
      | exact ⟨h1, h2, h3, h4⟩
      | exact ⟨fun r' c' hm => List.mem_append_left _ (h1 r' c' hm),
          fun r' c' hm => List.mem_append_left _ (h2 r' c' hm), h3, h4⟩
      | exact ⟨h1, h2, fun r' c' hm => List.mem_append_left _ (h3 r' c' hm),
          fun r' c' hm => List.mem_append_left _ (h4 r' c' hm)⟩
      | (refine ⟨?_, ?_, h3, h4⟩ <;>
          · intro r' c' hmem
            rcases mem_bucketGet_bucketAppend _ _ _ _ _ hmem with hold | rfl
            · exact List.mem_append_left _
                (by first | exact h1 r' c' hold | exact h2 r' c' hold)
            · exact List.mem_append_right _ (List.mem_singleton_self c'))
      | (refine ⟨h1, h2, ?_, ?_⟩ <;>
          · intro r' c' hmem
            rcases mem_bucketGet_bucketAppend _ _ _ _ _ hmem with hold | rfl
            · exact List.mem_append_left _
                (by first | exact h3 r' c' hold | exact h4 r' c' hold)
            · exact List.mem_append_right _ (List.mem_singleton_self c'))
  · intro rarities sd c s p f r
    simp only [insertCard]
    split_ifs <;>
      first
        | exact Or.inl ⟨rfl, rfl, rfl, rfl⟩
        | exact Or.inr (Or.inl ⟨rfl, rfl, rfl, rfl⟩)
        | exact Or.inr (Or.inr (Or.inl ⟨rfl, rfl, rfl, rfl⟩))
        | exact Or.inr (Or.inr (Or.inr ⟨rfl, rfl, rfl, rfl⟩))
  · intro sd c f r h
    obtain ⟨h1, h2, h3, h4⟩ := h
    simp only [ebayInsert]
    split_ifs
    all_goals
      refine ⟨?_, ?_, ?_, ?_⟩ <;> intro r' c' hmem <;>
        first
          | (rcases mem_bucketGet_bucketAppend _ _ _ _ _ hmem with hold | rfl
             · exact List.mem_append_left _
                 (by first | exact h1 r' c' hold | exact h2 r' c' hold
                           | exact h3 r' c' hold | exact h4 r' c' hold)
             · exact List.mem_append_right _ (List.mem_singleton_self c'))
          | exact List.mem_append_left _
              (by first | exact h1 r' c' hmem | exact h2 r' c' hmem
                        | exact h3 r' c' hmem | exact h4 r' c' hmem)
          | exact h1 r' c' hmem
          | exact h2 r' c' hmem
          | exact h3 r' c' hmem
          | exact h4 r' c' hmem
  · intro sd c f r
    simp only [ebayInsert]
    split_ifs <;>
      first
        | exact Or.inl ⟨rfl, rfl⟩
        | exact Or.inr ⟨rfl, rfl⟩

/-- Claim C5 witness: concrete insertions into freshly initialized
structures keep the invariant and append to exactly one flat bucket. -/
theorem bucket_routing_invariants_witness :
    SubInv (insertCard RARITIES (initSetData RARITIES)
      ⟨("Sparkmage".toList), 3, [], [], [], [], ("Alpha".toList)⟩
      false false true ("Ordinary".toList)) ∧
    EbaySubInv (ebayInsert (initEbaySetData RARITIES)
      ⟨("Sparkmage".toList), [], [], [], [], ("Ordinary".toList), [], ("Alpha".toList)⟩
      true ("Ordinary".toList)) := by
  constructor
  · exact bucket_routing_invariants.1 RARITIES (initSetData RARITIES) _ false false true
      ("Ordinary".toList) (subInv_initSetData RARITIES)
  · exact bucket_routing_invariants.2.2.1 (initEbaySetData RARITIES) _ true
      ("Ordinary".toList) (ebaySubInv_initSetData RARITIES)

/-! ## Merge helper lemmas -/

/-- Flat-bucket effect of one insertion: exactly one of the four flat
category buckets is extended by the record. -/
theorem insertCard_flat_cases (rarities : List (List Char)) (sd : SetData) (c : CardInfo)
    (s p f : Bool) (r : List Char) :
    ((insertCard rarities sd c s p f r).nonFoil = sd.nonFoil ∧
     (insertCard rarities sd c s p f r).foil = sd.foil ∧
     (insertCard rarities sd c s p f r).sealedList = sd.sealedList ++ [c] ∧
     (insertCard rarities sd c s p f r).preconstructed = sd.preconstructed) ∨
    ((insertCard rarities sd c s p f r).nonFoil = sd.nonFoil ∧
     (insertCard rarities sd c s p f r).foil = sd.foil ∧
     (insertCard rarities sd c s p f r).sealedList = sd.sealedList ∧
     (insertCard rarities sd c s p f r).preconstructed = sd.preconstructed ++ [c]) ∨
    ((insertCard rarities sd c s p f r).nonFoil = sd.nonFoil ∧
     (insertCard rarities sd c s p f r).foil = sd.foil ++ [c] ∧
     (insertCard rarities sd c s p f r).sealedList = sd.sealedList ∧
     (insertCard rarities sd c s p f r).preconstructed = sd.preconstructed) ∨
    ((insertCard rarities sd c s p f r).nonFoil = sd.nonFoil ++ [c] ∧
     (insertCard rarities sd c s p f r).foil = sd.foil ∧
     (insertCard rarities sd c s p f r).sealedList = sd.sealedList ∧
     (insertCard rarities sd c s p f r).preconstructed = sd.preconstructed) := by
  simp only [insertCard]
  split_ifs <;>
    first
      | exact Or.inl ⟨rfl, rfl, rfl, rfl⟩
      | exact Or.inr (Or.inl ⟨rfl, rfl, rfl, rfl⟩)
      | exact Or.inr (Or.inr (Or.inl ⟨rfl, rfl, rfl, rfl⟩))
      | exact Or.inr (Or.inr (Or.inr ⟨rfl, rfl, rfl, rfl⟩))

/-- Membership characterization of the existing-identifier set. -/
theorem mem_existingIds_iff (sd : SetData) (x : ℕ) :
    x ∈ existingIds sd ↔ ∃ c : CardInfo,
      (c ∈ sd.nonFoil ∨ c ∈ sd.foil ∨ c ∈ sd.sealedList ∨ c ∈ sd.preconstructed) ∧
      c.tcgplayerProductId = x ∧ x ≠ 0 := by
  simp only [existingIds, List.mem_filterMap, List.mem_append]
  constructor
  · rintro ⟨c, hmem, hc⟩
    by_cases h0 : c.tcgplayerProductId ≠ 0
    · rw [if_pos h0] at hc
      obtain rfl := Option.some.inj hc
      exact ⟨c, by tauto, rfl, h0⟩
    · rw [if_neg h0] at hc
      cases hc
  · rintro ⟨c, hmem, rfl, hx⟩
    exact ⟨c, by tauto, by rw [if_pos hx]⟩

/-- Insertion never removes an existing identifier. -/
theorem existingIds_insertCard_mono (rarities : List (List Char)) (sd : SetData)
    (c : CardInfo) (s p f : Bool) (r : List Char) (x : ℕ)
    (h : x ∈ existingIds sd) : x ∈ existingIds (insertCard rarities sd c s p f r) := by
  rw [mem_existingIds_iff] at h ⊢
  obtain ⟨c0, hmem, hid, hx⟩ := h
  rcases insertCard_flat_cases rarities sd c s p f r with h4 | h4 | h4 | h4 <;>
    obtain ⟨e1, e2, e3, e4⟩ := h4 <;>
    exact ⟨c0, by rw [e1, e2, e3, e4]; rcases hmem with hm | hm | hm | hm <;> simp [hm],
      hid, hx⟩

/-- An inserted record with a truthy identifier makes that identifier
present in the flat buckets. -/
theorem existingIds_insertCard_self (rarities : List (List Char)) (sd : SetData)
    (c : CardInfo) (s p f : Bool) (r : List Char)
    (h : c.tcgplayerProductId ≠ 0) :
    c.tcgplayerProductId ∈ existingIds (insertCard rarities sd c s p f r) := by
  rw [mem_existingIds_iff]
  rcases insertCard_flat_cases rarities sd c s p f r with h4 | h4 | h4 | h4 <;>
    obtain ⟨e1, e2, e3, e4⟩ := h4 <;>
    exact ⟨c, by rw [e1, e2, e3, e4]; simp, rfl, h⟩

/-- A processing step for a record hitting one of the three skip
conditions leaves the set structure unchanged. -/
theorem processOne_skip (rarities : List (List Char)) (sn : List Char)
    (pinfo : ℕ → Option ProductDetails) (ids : List ℕ) (sd : SetData)
    (rec : ℕ × PriceInfo)
    (h : rec.1 ∈ ids ∨ pinfo rec.1 = none ∨
      ∃ det, pinfo rec.1 = some det ∧ det.name = []) :
    processOne rarities sn pinfo ids sd rec = sd := by
  unfold processOne
  rcases h with h | h | ⟨det, hdet, hname⟩
  · rw [if_pos h]
  · by_cases hin : rec.1 ∈ ids
    · rw [if_pos hin]
    · rw [if_neg hin, h]
  · by_cases hin : rec.1 ∈ ids
    · rw [if_pos hin]
    · rw [if_neg hin, hdet]
      simp [hname]

/-- A processing step for a record hitting no skip condition inserts the
built record. -/
theorem processOne_insert (rarities : List (List Char)) (sn : List Char)
    (pinfo : ℕ → Option ProductDetails) (ids : List ℕ) (sd : SetData)
    (rec : ℕ × PriceInfo) (det : ProductDetails)
    (hin : rec.1 ∉ ids) (hdet : pinfo rec.1 = some det) (hname : det.name ≠ []) :
    processOne rarities sn pinfo ids sd rec =
      insertCard rarities sd (mkCardInfo sn rec.1 det rec.2)
        (classifySealed det.name sn) (classifyPrecon det.name)
        (classifyFoil det.name sn rec.2.subTypeName)
        (if classifySealed det.name sn then [] else det.rarity) := by
  unfold processOne
  rw [if_neg hin, hdet]
  simp [hname]

/-- One processing step never removes an existing identifier. -/
theorem existingIds_processOne_mono (rarities : List (List Char)) (sn : List Char)
    (pinfo : ℕ → Option ProductDetails) (ids : List ℕ) (sd : SetData)
    (rec : ℕ × PriceInfo) (x : ℕ) (h : x ∈ existingIds sd) :
    x ∈ existingIds (processOne rarities sn pinfo ids sd rec) := by
  by_cases hin : rec.1 ∈ ids
  · rw [processOne_skip rarities sn pinfo ids sd rec (Or.inl hin)]
    exact h
  · cases hdet : pinfo rec.1 with
    | none =>
      rw [processOne_skip rarities sn pinfo ids sd rec (Or.inr (Or.inl hdet))]
      exact h
    | some det =>
      by_cases hname : det.name = []
      · rw [processOne_skip rarities sn pinfo ids sd rec
          (Or.inr (Or.inr ⟨det, hdet, hname⟩))]
        exact h
      · rw [processOne_insert rarities sn pinfo ids sd rec det hin hdet hname]
        exact existingIds_insertCard_mono _ _ _ _ _ _ _ x h

/-- A whole processing pass never removes an existing identifier. -/
theorem existingIds_foldl_mono (rarities : List (List Char)) (sn : List Char)
    (pinfo : ℕ → Option ProductDetails) (ids : List ℕ) (batch : List (ℕ × PriceInfo)) :
    ∀ (sd : SetData) (x : ℕ), x ∈ existingIds sd →
      x ∈ existingIds (batch.foldl (processOne rarities sn pinfo ids) sd) := by
  induction batch with
  | nil => intro sd x h; exact h
  | cons a l ih =>
    intro sd x h
    rw [List.foldl_cons]
    exact ih _ x (existingIds_processOne_mono rarities sn pinfo ids sd a x h)

/-- After a processing pass, every batch record with a truthy identifier
either hit a skip condition or has its identifier present in the
result. -/
theorem batch_skip_or_present (rarities : List (List Char)) (sn : List Char)
    (pinfo : ℕ → Option ProductDetails) (ids : List ℕ) (batch : List (ℕ × PriceInfo)) :
    ∀ (sd : SetData) (rec : ℕ × PriceInfo), rec ∈ batch → rec.1 ≠ 0 →
      rec.1 ∈ ids ∨ pinfo rec.1 = none ∨
      (∃ det, pinfo rec.1 = some det ∧ det.name = []) ∨
      rec.1 ∈ existingIds (batch.foldl (processOne rarities sn pinfo ids) sd) := by
  induction batch with
  | nil => intro sd rec h; cases h
  | cons a l ih =>
    intro sd rec hmem hne
    rw [List.foldl_cons]
    rcases List.mem_cons.mp hmem with rfl | hmem'
    · by_cases hin : rec.1 ∈ ids
      · exact Or.inl hin
      · cases hdet : pinfo rec.1 with
        | none => exact Or.inr (Or.inl rfl)
        | some det =>
          by_cases hname : det.name = []
          · exact Or.inr (Or.inr (Or.inl ⟨det, rfl, hname⟩))
          · refine Or.inr (Or.inr (Or.inr ?_))
            have hstep : rec.1 ∈ existingIds (processOne rarities sn pinfo ids sd rec) := by
              rw [processOne_insert rarities sn pinfo ids sd rec det hin hdet hname]
              exact existingIds_insertCard_self rarities sd
                (mkCardInfo sn rec.1 det rec.2) _ _ _ _ hne
            exact existingIds_foldl_mono rarities sn pinfo ids l _ rec.1 hstep
    · exact ih (processOne rarities sn pinfo ids sd a) rec hmem' hne

/-- A processing pass in which every record hits a skip condition is the
identity. -/
theorem foldl_processOne_skip_id (rarities : List (List Char)) (sn : List Char)
    (pinfo : ℕ → Option ProductDetails) (ids : List ℕ) (batch : List (ℕ × PriceInfo))
    (h : ∀ rec ∈ batch, rec.1 ∈ ids ∨ pinfo rec.1 = none ∨
      ∃ det, pinfo rec.1 = some det ∧ det.name = []) :
    ∀ sd : SetData, batch.foldl (processOne rarities sn pinfo ids) sd = sd := by
  induction batch with
  | nil => intro sd; rfl
  | cons a l ih =>
    intro sd
    rw [List.foldl_cons, processOne_skip rarities sn pinfo ids sd a
      (h a (List.mem_cons_self a l))]
    exact ih (fun rec hr => h rec (List.mem_cons_of_mem a hr)) sd

/-! ## C4 -/

/-- Claim C4: the per-set merge is idempotent. Running the merge pass
twice with the same batch of records carrying truthy stable product
identifiers against the same starting structure equals running it once:
on the second pass every record is skipped, because its identifier is
already present in one of the four flat buckets (or it was skipped for
the same missing-data reason both times). -/
theorem merge_idempotent (rarities : List (List Char)) (sn : List Char)
    (pinfo : ℕ → Option ProductDetails) (sd : SetData) (batch : List (ℕ × PriceInfo))
    (h : ∀ rec ∈ batch, rec.1 ≠ 0) :
    processRecords rarities sn pinfo (processRecords rarities sn pinfo sd batch) batch
      = processRecords rarities sn pinfo sd batch := by
  simp only [processRecords]
  apply foldl_processOne_skip_id
  intro rec hrec
  rcases batch_skip_or_present rarities sn pinfo (existingIds sd) batch sd rec hrec
      (h rec hrec) with hin | hdet | hname | hpres
  · exact Or.inl (existingIds_foldl_mono rarities sn pinfo (existingIds sd) batch sd
      rec.1 hin)
  · exact Or.inr (Or.inl hdet)
  · exact Or.inr (Or.inr hname)
  · exact Or.inl hpres

/-- Product-info lookup for the merge-idempotence witness. -/
def pinfoW : ℕ → Option ProductDetails := fun pid =>
  if pid = 1 then some ⟨("Booster Box".toList), []⟩ else none

/-- Record batch for the merge-idempotence witness. -/
def batchW : List (ℕ × PriceInfo) :=
  [(1, ⟨some 20, some 25, some 30, some 0, ("Normal".toList)⟩)]

/-- Claim C4 witness: merging the one-record batch twice from a fresh
structure equals merging it once. -/
theorem merge_idempotent_witness :
    processRecords RARITIES ("Alpha".toList) pinfoW
        (processRecords RARITIES ("Alpha".toList) pinfoW (initSetData RARITIES) batchW)
        batchW
      = processRecords RARITIES ("Alpha".toList) pinfoW (initSetData RARITIES) batchW := by
  apply merge_idempotent
  intro rec hrec
  simp only [batchW, List.mem_singleton] at hrec
  subst hrec
  decide

/-! ## C8 -/

/-- Name of the brand-conflict reference card (with its apostrophe). -/
def eriksCuriosa : List Char := ("Erik".toList) ++ (apos :: ("s Curiosa".toList))

/-- Claim C8 as stated is false on the code: with both the long and the
short reference name present, a title containing the long name still
yields the short name when no set of the long-name card matches the
title (here the long-name card is only known in "Beta" while the title
names "Alpha"). -/
theorem title_matcher_counterexample :
    extract_card_info_from_title (eriksCuriosa ++ (" Alpha".toList))
        [(eriksCuriosa, ⟨[⟨("Beta".toList), ("Ordinary".toList), []⟩]⟩),
         (("Curiosa".toList), ⟨[⟨("Alpha".toList), ("Ordinary".toList), []⟩]⟩)]
      = some (("Curiosa".toList), ("Alpha".toList)) ∧
    eriksCuriosa <:+: (eriksCuriosa ++ (" Alpha".toList)) ∧
    ¬ (("promo".toList) <:+:
        pyLower (normalize_to_american_english (eriksCuriosa ++ (" Alpha".toList)))) := by
  decide

/-- Claim C8 (amended): a title whose normalized form contains "promo" is
never matched; and with the reference catalog holding exactly the long
name and its short substring, a promo-free title that word-boundary
matches the long normalized name and a non-promo set name of the long
card is matched to the long name, never to the short substring. -/
theorem title_matcher_promo_and_longest :
    (∀ (title : List Char) (master : List (List Char × CardData)),
      ("promo".toList) <:+: pyLower (normalize_to_american_english title) →
      extract_card_info_from_title title master = none) ∧
    (∀ (title : List Char) (sets1 sets2 : List SetInfo),
      ¬ ("promo".toList) <:+: pyLower (normalize_to_american_english title) →
      wbSearch (pyLower (normalize_to_american_english eriksCuriosa))
          (pyLower (normalize_to_american_english title)) = true →
      (∃ si ∈ sets1, si.set_name ≠ [] ∧
        pyLower (normalize_to_american_english si.set_name) ∉ normalizedPromoSets ∧
        wbSearch (pyLower (normalize_to_american_english si.set_name))
            (pyLower (normalize_to_american_english title)) = true) →
      (∃ sn, extract_card_info_from_title title
          [(eriksCuriosa, ⟨sets1⟩), (("Curiosa".toList), ⟨sets2⟩)]
        = some (eriksCuriosa, sn)) ∧
      ∀ sn', extract_card_info_from_title title
          [(eriksCuriosa, ⟨sets1⟩), (("Curiosa".toList), ⟨sets2⟩)]
        ≠ some (("Curiosa".toList), sn')) := by
  constructor
  · intro title master h
    simp only [extract_card_info_from_title]
    rw [if_pos (by simpa [containsSub, decide_eq_true_iff] using h)]
  · intro title sets1 sets2 h0 h1 h2
    obtain ⟨si, hsi, hne, hnp, hwb⟩ := h2
    have hmain : ∃ sn, extract_card_info_from_title title
        [(eriksCuriosa, ⟨sets1⟩), (("Curiosa".toList), ⟨sets2⟩)]
      = some (eriksCuriosa, sn) := by
      simp only [extract_card_info_from_title]
      rw [if_neg (by simp only [containsSub, decide_eq_true_iff]; exact h0)]
      have hsort : ([(eriksCuriosa, (⟨sets1⟩ : CardData)),
          (("Curiosa".toList), (⟨sets2⟩ : CardData))].insertionSort
            (fun a b => (b.1).length ≤ (a.1).length))
          = [(eriksCuriosa, ⟨sets1⟩), (("Curiosa".toList), ⟨sets2⟩)] := by
        simp only [List.insertionSort, List.orderedInsert]
        rw [if_pos (by decide)]
      rw [hsort, List.findSome?_cons]
      simp only []
      rw [if_pos h1]
      set g := fun set_info : SetInfo =>
        if set_info.set_name = [] then none
        else
          if pyLower (normalize_to_american_english set_info.set_name) ∈ normalizedPromoSets
          then none
          else if wbSearch (pyLower (normalize_to_american_english set_info.set_name))
              (pyLower (normalize_to_american_english title)) = true then
            some (eriksCuriosa, set_info.set_name)
          else none with hg
      have hsi' : si ∈ sets1.insertionSort
          (fun a b => b.set_name.length ≤ a.set_name.length) :=
        ((List.perm_insertionSort _ sets1).mem_iff).mpr hsi
      cases hinner : (sets1.insertionSort
          (fun a b => b.set_name.length ≤ a.set_name.length)).findSome? g with
      | none =>
        exfalso
        have hnone := List.findSome?_eq_none_iff.mp hinner si hsi'
        rw [hg] at hnone
        simp only [hne, hnp, hwb] at hnone
        simp at hnone
      | some v =>
        obtain ⟨si', hmem', hgsi⟩ := List.exists_of_findSome?_eq_some hinner
        rw [hg] at hgsi
        simp only [] at hgsi
        split_ifs at hgsi
        obtain rfl := Option.some.inj hgsi
        exact ⟨si'.set_name, rfl⟩
    obtain ⟨sn, hres⟩ := hmain
    refine ⟨⟨sn, hres⟩, ?_⟩
    intro sn' heq
    rw [hres] at heq
    obtain ⟨hfst, -⟩ := Prod.mk.injEq .. ▸ Option.some.inj heq
    exact absurd hfst (by decide)

/-- Claim C8 witness: a promo title is unmatched, and a concrete title
containing the long name and its set matches the long name. -/
theorem title_matcher_promo_and_longest_witness :
    extract_card_info_from_title ("Sparkmage promo".toList) [] = none ∧
    (∃ sn, extract_card_info_from_title (eriksCuriosa ++ (" Alpha".toList))
        [(eriksCuriosa, ⟨[⟨("Alpha".toList), ("Ordinary".toList), []⟩]⟩),
         (("Curiosa".toList), ⟨[⟨("Alpha".toList), ("Ordinary".toList), []⟩]⟩)]
      = some (eriksCuriosa, sn)) := by
  constructor
  · exact title_matcher_promo_and_longest.1 ("Sparkmage promo".toList) [] (by decide)
  · exact (title_matcher_promo_and_longest.2 (eriksCuriosa ++ (" Alpha".toList))
      [⟨("Alpha".toList), ("Ordinary".toList), []⟩]
      [⟨("Alpha".toList), ("Ordinary".toList), []⟩]
      (by decide) (by decide) (by decide)).1
